import Mathlib

/-!
Shallow embedding of `src/takitaro.py`, an Inkscape extension that turns a
layered SVG drawing into a sequence of exported SVG documents with embedded
CSS draw-on stroke animation.

Numbers (path lengths, timeline percentages) are modelled as rationals.
Python's `round(x, 3)` (round-half-to-even to 3 decimal digits) is modelled
exactly on ℚ.  Fallible operations (Python exceptions such as
`ZeroDivisionError`) are modelled with `Option`.  The XML document is
modelled as a list of layers (each a list of path elements) together with
the list of `<style>` tags of the root element, in document order.
-/

/-- Round-half-to-even on ℚ, the rounding mode of Python's builtin `round`. -/
def round_half_even (q : ℚ) : ℤ :=
  if q - ⌊q⌋ < 1/2 then ⌊q⌋
  else if q - ⌊q⌋ > 1/2 then ⌊q⌋ + 1
  else if ⌊q⌋ % 2 = 0 then ⌊q⌋ else ⌊q⌋ + 1

/-- Python's `round(x, 3)`: round to 3 decimal digits, half to even. -/
def pyRound3 (q : ℚ) : ℚ := (round_half_even (q * 1000) : ℚ) / 1000

/-- The `Layer` namedtuple of the source: `Layer = namedtuple("Layer", ["id", "label"])`. -/
structure Layer where
  id : String
  label : String
deriving DecidableEq, Repr

/-- The `Export` namedtuple of the source:
`Export = namedtuple("Export", ["visible_layers", "file_name"])`.
`visible_layers` is a Python `set` of layer ids, modelled as a `Finset`. -/
structure Export where
  visible_layers : Finset String
  file_name : String
deriving DecidableEq

/-- The parameters of the f-string template of `animate_path`
(lines 157-165 of the source):

```
#{path_id} { animation-name: {path_id}; stroke-dasharray: {length} !important; }
@keyframes {path_id} {
  0%, {start_percent}% {stroke-dashoffset: {start_length};}
  {end_percent}%, 100% {stroke-dashoffset: {end_length};}
}
```

The template is injective in its parameters, so the CSS text is represented
by this record of the interpolated values: `selector` is the literal
selector string (`"#" ++ path_id`), `offsets_hidden` the two keyframe
offsets that set `stroke-dashoffset` to `hidden_val` (namely `0%` and
`{start_percent}%`), and `offsets_shown` the two offsets that set it to
`shown_val` (namely `{end_percent}%` and `100%`). -/
structure PathAnimCss where
  selector : String
  animation_name : String
  dasharray : ℚ
  keyframes_name : String
  offsets_hidden : List ℚ
  hidden_val : ℚ
  offsets_shown : List ℚ
  shown_val : ℚ
deriving DecidableEq, Repr

/-- Content of a `<style>` tag written by the source: either the per-path
rule of `animate_path`, or the shared per-step timing rule
`.{anim_id} 'x7b animation-duration: 1s; ... 'x7d` of `add_animation`
(parameters: the animation id and the configured timing-function string),
or arbitrary pre-existing style text. -/
inductive RuleContent where
  | path (css : PathAnimCss)
  | anim (cls_name timing : String)
  | raw (text : String)
deriving DecidableEq, Repr

/-- A `<style>` element of the document root: its `id` attribute and its text. -/
structure StyleRule where
  id : String
  content : RuleContent
deriving DecidableEq, Repr

/-- An `svg:path` element: its `id` attribute, its geometry (the list of
sub-paths, each a list of segment lengths as returned by `csplength`), and
its `class` attribute. -/
structure PathElem where
  id : String
  subpaths : List (List ℚ)
  cls : String
deriving DecidableEq, Repr

/-- An `svg:g inkscape:groupmode="layer"` element: id, label, the path
elements inside it (in document order) and its `style` attribute. -/
structure LayerElem where
  id : String
  label : String
  paths : List PathElem
  style : String
deriving DecidableEq, Repr

/-- The SVG document: the layer elements in document order, and the
`<style>` tags of the root in document order. -/
structure Document where
  layers : List LayerElem
  styles : List StyleRule
deriving DecidableEq, Repr

/-- `get_layer_list` (lines 68-80): all layer groups, reversed, each
mapped to `Layer(id, label.lower())`. -/
def get_layer_list (doc : Document) : List Layer :=
  doc.layers.reverse.map (fun g => ⟨g.id, g.label.toLower⟩)

/-- `f"{counter+1:03d}"`: zero-pad a number to (at least) 3 digits. -/
def pad3 (n : ℕ) : String :=
  String.mk (List.replicate (3 - (toString n).length) '0') ++ toString n

/-- The `Export` record built for loop counter `counter` in
`get_export_list`: `visible_layers` is the set of ids of all layers with
index `<= counter`, and the file name is the label, prefixed by the
zero-padded 1-based ordinal when `enum` is set. -/
def mkExport (layer_list : List Layer) (enum : Bool) (counter : ℕ) (layer : Layer) : Export :=
  ⟨((layer_list.take (counter + 1)).map Layer.id).toFinset,
   if enum then pad3 (counter + 1) ++ "_" ++ layer.label else layer.label⟩

/-- The loop of `get_export_list` (lines 85-98), with the enumerate
counter made explicit: iterates over the remaining layers, skipping the
iteration with `counter = 0` when `include_background` is false. -/
def get_export_loop (layer_list : List Layer) (include_background enum : Bool) :
    ℕ → List Layer → List Export
  | _, [] => []
  | counter, layer :: rest =>
      if counter = 0 ∧ include_background = false then
        get_export_loop layer_list include_background enum (counter + 1) rest
      else
        mkExport layer_list enum counter layer ::
          get_export_loop layer_list include_background enum (counter + 1) rest

/-- `get_export_list` (lines 82-99). -/
def get_export_list (layer_list : List Layer) (include_background enum : Bool) : List Export :=
  get_export_loop layer_list include_background enum 0 layer_list

/-- Python's `max` over a non-empty list (`none` on the empty list, where
Python raises `ValueError`). -/
def py_max : List ℚ → Option ℚ
  | [] => none
  | x :: xs => some (xs.foldl max x)

/-- `get_animatable_length` (lines 171-179): `csplength` returns the
per-sub-path lists of segment lengths together with the total length (the
sum of all segment lengths); when there is more than one sub-path the
result is replaced by the maximum single sub-path length. -/
def get_animatable_length (subpaths : List (List ℚ)) : ℚ :=
  let sums := subpaths.map List.sum
  let path_length := sums.sum
  if subpaths.length > 1 then (py_max sums).getD path_length else path_length

/-- Helper of `add_or_replace_style_tag`: remove the first style tag with
the given id, if any (the source locates it with
`next((tag for tag in style_tags if tag.get("id") == tag_id), None)` and
calls `self.root.remove(old_tag)`). -/
def remove_first_by_id : List StyleRule → String → List StyleRule
  | [], _ => []
  | t :: ts, tag_id => if t.id = tag_id then ts else t :: remove_first_by_id ts tag_id

/-- `add_or_replace_style_tag` (lines 181-197): remove the first style tag
whose id is `tag_id` (if any), then append a new style tag with that id
and the given content at the end of the root. -/
def add_or_replace_style_tag (styles : List StyleRule) (tag_id : String)
    (content : RuleContent) : List StyleRule :=
  remove_first_by_id styles tag_id ++ [⟨tag_id, content⟩]

/-- The CSS text written by `animate_path` for one path, as the template
parameter record (see `PathAnimCss`). -/
def path_style_content (path_id : String)
    (start_percent end_percent length start_length end_length : ℚ) : RuleContent :=
  RuleContent.path
    { selector := "#" ++ path_id
      animation_name := path_id
      dasharray := length
      keyframes_name := path_id
      offsets_hidden := [0, start_percent]
      hidden_val := start_length
      offsets_shown := [end_percent, 100]
      shown_val := end_length }

/-- `element.set("class", anim_id)`: set the `class` attribute of the path
elements with the given id, wherever they occur in the document. -/
def set_path_class (doc : Document) (path_id cname : String) : Document :=
  { doc with layers := doc.layers.map (fun g =>
      { g with paths := g.paths.map (fun p =>
          if p.id = path_id then { p with cls := cname } else p) }) }

/-- `animate_path` (lines 145-169): upsert the style tag keyed
`pathanim_{path_id}` with the per-path animation CSS, then set the path's
`class` attribute to `anim_id`.  The style tags live on the root of the
live document. -/
def animate_path (doc : Document) (element : PathElem)
    (start_percent end_percent length start_length end_length : ℚ)
    (anim_id : String) : Document :=
  let new_styles := add_or_replace_style_tag doc.styles ("pathanim_" ++ element.id)
    (path_style_content element.id start_percent end_percent length start_length end_length)
  set_path_class { doc with styles := new_styles } element.id anim_id

/-- The timeline-allocation loop of `add_animation` (lines 120-124), as a
pure function of the measured lengths: running `end_percent`, each step
taking `start_percent := end_percent` and
`end_percent := min (end_percent + round(length/total*100, 3)) 100`. -/
def allocate : List ℚ → ℚ → ℚ → List (ℚ × ℚ)
  | [], _, _ => []
  | length :: rest, total_length, end_percent =>
      let start_percent := end_percent
      let next_end := min (end_percent + pyRound3 (length / total_length * 100)) 100
      (start_percent, next_end) :: allocate rest total_length next_end

/-- The `[start_percent, end_percent)` timeline allocation of a list of
measured lengths, as computed by the loop of `add_animation`. -/
def allocation (lengths : List ℚ) : List (ℚ × ℚ) := allocate lengths lengths.sum 0

/-- The per-path loop of `add_animation` (lines 121-133): for each path, in
order, compute its timeline slot and call `animate_path` with
`start_length := length` and `end_length := 0`. -/
def animate_loop (anim_id : String) (total_length : ℚ) :
    Document → List PathElem → ℚ → Document
  | doc, [], _ => doc
  | doc, element :: rest, end_percent =>
      let length := get_animatable_length element.subpaths
      let start_percent := end_percent
      let next_end := min (end_percent + pyRound3 (length / total_length * 100)) 100
      animate_loop anim_id total_length
        (animate_path doc element start_percent next_end length length 0 anim_id)
        rest next_end

/-- `add_animation` (lines 105-143).  Returns `none` where Python raises
(`ZeroDivisionError` when the measured lengths sum to zero), and otherwise
the updated document together with a flag that is `true` exactly when the
"Please convert all objects to paths" warning was emitted (no paths to
animate; the document is then returned unchanged).  When paths exist the
shared timing rule keyed `anim_id` is upserted after the per-path rules. -/
def add_animation (doc : Document) (to_animate : List PathElem)
    (anim_id animation_style : String) : Option (Document × Bool) :=
  let lengths := to_animate.map (fun e => get_animatable_length e.subpaths)
  if lengths.isEmpty then
    some (doc, true)
  else if lengths.sum = 0 then
    none
  else
    let doc1 := animate_loop anim_id lengths.sum doc to_animate 0
    let new_styles := add_or_replace_style_tag doc1.styles anim_id
      (RuleContent.anim anim_id animation_style)
    some ({ doc1 with styles := new_styles }, false)

/-- The visibility assignment of `effect` (lines 231-238) and
`export_to_svg` (lines 214-218): every layer whose id is in
`visible_layers` gets `style="display:inline"`, every other layer
`style="display:none"`. -/
def set_layers_visibility (doc : Document) (visible : Finset String) : Document :=
  { doc with layers := doc.layers.map (fun g =>
      { g with style := if g.id ∈ visible then "display:inline" else "display:none" }) }

/-- `self.svg.getElementById` restricted to layer elements. -/
def getElementById (doc : Document) (i : String) : Option LayerElem :=
  doc.layers.find? (fun g => g.id == i)

/-- `export_to_svg` (lines 199-223): deep-copy the current document,
re-assert this step's visibility on the copy, and write it out.  The
returned document is the written copy; the live document is untouched. -/
def export_to_svg (doc : Document) (export_item : Export) : Document :=
  set_layers_visibility doc export_item.visible_layers

/-- `top_layer_id = list(export_item.visible_layers)[-1]` (line 239): the
last element of the iteration order of the Python `set`.  The iteration
order of a `set` of strings is hash-dependent and is passed in here as an
explicit enumeration list; `none` models the `IndexError` on an empty set. -/
def top_layer_of_iteration (iteration : List String) : Option String :=
  iteration.getLast?

/-- The top layer as the specification defines it: the layer with the
highest stack index (in the fixed planner order) among the visible ids. -/
def highest_index_visible (layer_list : List Layer) (visible : Finset String) : Option String :=
  ((layer_list.filter (fun l => decide (l.id ∈ visible))).map Layer.id).getLast?

/-- One iteration of the export loop of `effect` (lines 230-248): set the
visibility of every layer on the live document, resolve the top layer from
the given set-iteration order, animate its paths (mutating the live
document), and export a copy.  Returns the live document for the next
iteration, the exported copy, and the no-paths warning flag; `none` models
an unhandled Python exception. -/
def effect_step (doc : Document) (export_item : Export) (iteration : List String)
    (idx : ℕ) (animation_style : String) : Option (Document × Document × Bool) :=
  let doc1 := set_layers_visibility doc export_item.visible_layers
  match top_layer_of_iteration iteration with
  | none => none
  | some top_layer_id =>
    match getElementById doc1 top_layer_id with
    | none => none
    | some top_layer_tag =>
      match add_animation doc1 top_layer_tag.paths ("anim_" ++ toString idx) animation_style with
      | none => none
      | some (doc2, warned) => some (doc2, export_to_svg doc2 export_item, warned)

/-- The start/end pairs produced by the allocation loop form a chain: each
pair starts at the running `end_percent`, ends no earlier and no later
than 100, and the chain continues from its end. -/
def chained : ℚ → List (ℚ × ℚ) → Prop
  | _, [] => True
  | prev, pe :: rest => pe.1 = prev ∧ prev ≤ pe.2 ∧ pe.2 ≤ 100 ∧ chained pe.2 rest

/-- Whether a style rule carries a class-target selector (`.{pid}`) for
the given path id.  Used to compare the emitted per-path rule against the
specification's description of its selector. -/
def has_class_selector (pid : String) (r : StyleRule) : Bool :=
  match r.content with
  | RuleContent.path c => c.selector == "." ++ pid
  | _ => false

/-- A one-layer, one-path example document: layer `L1` holds path `p1`
whose single sub-path has measured length 1. -/
def exampleDoc : Document := ⟨[⟨"L1", "bg", [⟨"p1", [[1]], ""⟩], ""⟩], []⟩

/-- `exampleDoc` after the visibility pass of the export step. -/
def exampleVisDoc : Document :=
  ⟨[⟨"L1", "bg", [⟨"p1", [[1]], ""⟩], "display:inline"⟩], []⟩

/-- The live document after the export step on `exampleDoc`: the path has
class `anim_0` and the root holds the two injected style rules. -/
def exampleLive : Document :=
  ⟨[⟨"L1", "bg", [⟨"p1", [[1]], "anim_0"⟩], "display:inline"⟩],
   [⟨"pathanim_p1", path_style_content "p1" 0 100 1 1 0⟩,
    ⟨"anim_0", RuleContent.anim "anim_0" "ease"⟩]⟩

/-! ### Properties of the timeline allocation (C1, C10) -/

theorem pyRound3_nonneg (q : ℚ) (hq : 0 ≤ q) : 0 ≤ pyRound3 q := by
  have hf : (0 : ℤ) ≤ ⌊q * 1000⌋ := Int.floor_nonneg.mpr (by positivity)
  have hz : (0 : ℤ) ≤ round_half_even (q * 1000) := by
    unfold round_half_even
    split
    · exact hf
    · split
      · omega
      · split
        · exact hf
        · omega
  unfold pyRound3
  have : (0 : ℚ) ≤ (round_half_even (q * 1000) : ℚ) := by exact_mod_cast hz
  positivity

theorem allocate_length (l : List ℚ) (total : ℚ) :
    ∀ endp, (allocate l total endp).length = l.length := by
  induction l with
  | nil => intro endp; rfl
  | cons x xs ih => intro endp; simp [allocate, ih]

theorem allocate_chained (l : List ℚ) (total : ℚ) (htot : 0 < total) :
    ∀ endp, (∀ x ∈ l, 0 ≤ x) → 0 ≤ endp → endp ≤ 100 →
      chained endp (allocate l total endp) := by
  induction l with
  | nil => intro endp _ _ _; trivial
  | cons x xs ih =>
    intro endp hnn h0 h100
    have hx : 0 ≤ x := hnn x (List.mem_cons_self x xs)
    have hr : 0 ≤ pyRound3 (x / total * 100) := by
      apply pyRound3_nonneg
      positivity
    refine ⟨rfl, ?_, ?_, ?_⟩
    · exact le_min (le_add_of_nonneg_right hr) h100
    · exact min_le_right _ _
    · exact ih _ (fun y hy => hnn y (List.mem_cons_of_mem x hy))
        (le_trans h0 (le_min (le_add_of_nonneg_right hr) h100)) (min_le_right _ _)

theorem chained_get_le (ps : List (ℚ × ℚ)) :
    ∀ (prev : ℚ), chained prev ps → ∀ i (hi : i < ps.length),
      (ps.get ⟨i, hi⟩).1 ≤ (ps.get ⟨i, hi⟩).2 ∧ (ps.get ⟨i, hi⟩).2 ≤ 100 := by
  induction ps with
  | nil => intro prev _ i hi; exact absurd hi (by simp)
  | cons pe rest ih =>
    intro prev h i hi
    match i with
    | 0 =>
      obtain ⟨h1, h2, h3, _⟩ := h
      exact ⟨by simpa [h1] using h2, by simpa using h3⟩
    | Nat.succ j =>
      have := ih pe.2 h.2.2.2 j (by simpa using Nat.lt_of_succ_lt_succ hi)
      simpa using this

theorem chained_consec (ps : List (ℚ × ℚ)) :
    ∀ (prev : ℚ), chained prev ps → ∀ i (hi : i + 1 < ps.length),
      (ps.get ⟨i + 1, hi⟩).1 = (ps.get ⟨i, Nat.lt_of_succ_lt hi⟩).2 := by
  induction ps with
  | nil => intro prev _ i hi; exact absurd hi (by simp)
  | cons pe rest ih =>
    intro prev h i hi
    match i with
    | 0 =>
      match rest, h with
      | pe2 :: rest2, ⟨_, _, _, h4⟩ => exact h4.1
    | Nat.succ j =>
      have := ih pe.2 h.2.2.2 j (by simpa using Nat.lt_of_succ_lt_succ hi)
      simpa using this

/-- C1: for a non-empty list of (non-negative) measured lengths with
positive total, the allocation loop of `add_animation` starts the first
slot at 0, starts every later slot at the previous slot's end, keeps every
slot's end at or after its start and at most 100; lengths `[10,10,5]`
allocate to `[(0,40), (40,80), (80,100)]`. -/
theorem C1_timeline_allocation (l : List ℚ) (hne : l ≠ [])
    (hnn : ∀ x ∈ l, 0 ≤ x) (hpos : 0 < l.sum) :
    ((allocation l).head?.map Prod.fst = some 0) ∧
    (∀ i (hi : i + 1 < (allocation l).length),
      ((allocation l).get ⟨i + 1, hi⟩).1 = ((allocation l).get ⟨i, Nat.lt_of_succ_lt hi⟩).2) ∧
    (∀ i (hi : i < (allocation l).length),
      ((allocation l).get ⟨i, hi⟩).1 ≤ ((allocation l).get ⟨i, hi⟩).2 ∧
      ((allocation l).get ⟨i, hi⟩).2 ≤ 100) ∧
    allocation [10, 10, 5] = [(0, 40), (40, 80), (80, 100)] := by
  have hch : chained 0 (allocation l) :=
    allocate_chained l l.sum hpos 0 hnn le_rfl (by norm_num)
  refine ⟨?_, fun i hi => chained_consec _ _ hch i hi,
          fun i hi => chained_get_le _ _ hch i hi, ?_⟩
  · match l, hne with
    | x :: xs, _ => simp [allocation, allocate]
  · norm_num [allocation, allocate, pyRound3, round_half_even, min_def,
      List.sum_cons, List.sum_nil]

/-- Witness for C1 at the concrete input `[10, 10, 5]`. -/
theorem C1_timeline_allocation_witness :
    (([10, 10, 5] : List ℚ) ≠ [] ∧ (∀ x ∈ ([10, 10, 5] : List ℚ), 0 ≤ x) ∧
      0 < ([10, 10, 5] : List ℚ).sum) ∧
    (((allocation [10, 10, 5]).head?.map Prod.fst = some 0) ∧
    (∀ i (hi : i + 1 < (allocation [10, 10, 5]).length),
      ((allocation [10, 10, 5]).get ⟨i + 1, hi⟩).1 =
        ((allocation [10, 10, 5]).get ⟨i, Nat.lt_of_succ_lt hi⟩).2) ∧
    (∀ i (hi : i < (allocation [10, 10, 5]).length),
      ((allocation [10, 10, 5]).get ⟨i, hi⟩).1 ≤ ((allocation [10, 10, 5]).get ⟨i, hi⟩).2 ∧
      ((allocation [10, 10, 5]).get ⟨i, hi⟩).2 ≤ 100) ∧
    allocation [10, 10, 5] = [(0, 40), (40, 80), (80, 100)]) :=
  ⟨⟨by simp, by norm_num, by norm_num [List.sum_cons, List.sum_nil]⟩,
   C1_timeline_allocation [10, 10, 5] (by simp) (by norm_num)
     (by norm_num [List.sum_cons, List.sum_nil])⟩

/-! ### Properties of the animatable length (C3) -/

theorem le_foldl_max (xs : List ℚ) : ∀ x : ℚ, x ≤ xs.foldl max x := by
  induction xs with
  | nil => intro x; exact le_rfl
  | cons y ys ih => intro x; exact le_trans (le_max_left x y) (ih (max x y))

theorem mem_le_foldl_max (xs : List ℚ) : ∀ x : ℚ, ∀ y ∈ xs, y ≤ xs.foldl max x := by
  induction xs with
  | nil => intro x y hy; exact absurd hy (by simp)
  | cons z zs ih =>
    intro x y hy
    rcases List.mem_cons.mp hy with h | h
    · subst h
      exact le_trans (le_max_right x y) (le_foldl_max zs (max x y))
    · exact ih (max x z) y h

theorem foldl_max_mem (xs : List ℚ) : ∀ x : ℚ, xs.foldl max x = x ∨ xs.foldl max x ∈ xs := by
  induction xs with
  | nil => intro x; exact Or.inl rfl
  | cons y ys ih =>
    intro x
    rcases ih (max x y) with h | h
    · rcases max_choice x y with hm | hm
      · exact Or.inl (by rw [List.foldl_cons, h, hm])
      · exact Or.inr (by rw [List.foldl_cons, h, hm]; exact List.mem_cons_self y ys)
    · exact Or.inr (List.mem_cons_of_mem y h)

/-- C3: with more than one sub-path, the animatable length is the maximum
single sub-path length (it is one of the sub-path sums and bounds all of
them); with a single sub-path it is the total arc length; sub-path lengths
`[3,7,2]` give 7, not the sum 12. -/
theorem C3_animatable_length (sps : List (List ℚ)) (hm : 1 < sps.length) :
    (get_animatable_length sps ∈ sps.map List.sum ∧
      ∀ s ∈ sps.map List.sum, s ≤ get_animatable_length sps) ∧
    (∀ sp : List ℚ, get_animatable_length [sp] = sp.sum) ∧
    get_animatable_length [[3], [7], [2]] = 7 ∧
    get_animatable_length [[3], [7], [2]] ≠ 12 := by
  refine ⟨?_, ?_, ?_, ?_⟩
  · match sps, hm with
    | sp0 :: sp1 :: rest, _ =>
      have hval : get_animatable_length (sp0 :: sp1 :: rest) =
          ((sp1.sum :: rest.map List.sum).foldl max sp0.sum) := by
        simp [get_animatable_length, py_max]
      constructor
      · rw [hval]
        rcases foldl_max_mem (sp1.sum :: rest.map List.sum) sp0.sum with h | h
        · rw [h]; simp
        · simp only [List.map_cons]
          exact List.mem_cons_of_mem _ h
      · intro s hs
        rw [hval]
        simp only [List.map_cons, List.mem_cons] at hs
        rcases hs with h | h
        · subst h; exact le_foldl_max _ _
        · exact mem_le_foldl_max _ _ s (by simpa using h)
  · intro sp; simp [get_animatable_length]
  · norm_num [get_animatable_length, py_max, max_def]
  · norm_num [get_animatable_length, py_max, max_def]

/-- Witness for C3 at the concrete input `[[3],[7],[2]]`. -/
theorem C3_animatable_length_witness :
    (1 < ([[3], [7], [2]] : List (List ℚ)).length) ∧
    ((get_animatable_length [[3], [7], [2]] ∈ ([[3], [7], [2]] : List (List ℚ)).map List.sum ∧
      ∀ s ∈ ([[3], [7], [2]] : List (List ℚ)).map List.sum,
        s ≤ get_animatable_length [[3], [7], [2]]) ∧
    (∀ sp : List ℚ, get_animatable_length [sp] = sp.sum) ∧
    get_animatable_length [[3], [7], [2]] = 7 ∧
    get_animatable_length [[3], [7], [2]] ≠ 12) :=
  ⟨by norm_num, C3_animatable_length [[3], [7], [2]] (by norm_num)⟩

/-! ### Properties of the export plan (C4, C5) -/

theorem get_export_loop_length (L : List Layer) (ib e : Bool) :
    ∀ (ls : List Layer) (c : ℕ), c ≠ 0 →
      (get_export_loop L ib e c ls).length = ls.length := by
  intro ls
  induction ls with
  | nil => intro c _; rfl
  | cons x xs ih =>
    intro c hc
    have : ¬(c = 0 ∧ ib = false) := fun h => hc h.1
    simp only [get_export_loop, if_neg this, List.length_cons]
    rw [ih (c + 1) (Nat.succ_ne_zero c)]

/-- C4: the planner emits `|layers|` steps when `include_background` is
true and `|layers| - 1` (truncated at 0) when it is false; in particular
an empty layer list, or a single layer without background, yields an empty
plan rather than a failure. -/
theorem C4_plan_exports_count (L : List Layer) (ib e : Bool) :
    (get_export_list L ib e).length = (if ib then L.length else L.length - 1) ∧
    get_export_list ([] : List Layer) ib e = [] := by
  constructor
  · match L with
    | [] => cases ib <;> rfl
    | x :: xs =>
      cases ib with
      | false =>
        have key : get_export_list (x :: xs) false e = get_export_loop (x :: xs) false e 1 xs := by
          simp [get_export_list, get_export_loop]
        rw [key, get_export_loop_length _ _ _ xs 1 one_ne_zero]
        simp
      | true =>
        have key : get_export_list (x :: xs) true e =
            mkExport (x :: xs) e 0 x :: get_export_loop (x :: xs) true e 1 xs := by
          simp [get_export_list, get_export_loop]
        rw [key, List.length_cons, get_export_loop_length _ _ _ xs 1 one_ne_zero]
        simp
  · cases ib <;> rfl

theorem get_export_loop_getElem (L : List Layer) (ib e : Bool) :
    ∀ (ls : List Layer) (c : ℕ), c ≠ 0 → ∀ i : ℕ,
      (get_export_loop L ib e c ls)[i]? = (ls[i]?).map (mkExport L e (c + i)) := by
  intro ls
  induction ls with
  | nil => intro c hc i; simp [get_export_loop]
  | cons x xs ih =>
    intro c hc i
    have hcond : ¬(c = 0 ∧ ib = false) := fun h => hc h.1
    simp only [get_export_loop, if_neg hcond]
    match i with
    | 0 => simp
    | Nat.succ j =>
      rw [List.getElem?_cons_succ, List.getElem?_cons_succ,
        ih (c + 1) (Nat.succ_ne_zero c) j]
      have harith : c + 1 + j = c + (j + 1) := by omega
      rw [harith]

theorem get_export_list_getElem (L : List Layer) (ib e : Bool) (j : ℕ) :
    (get_export_list L ib e)[j]? =
      (L[j + (if ib then 0 else 1)]?).map (mkExport L e (j + (if ib then 0 else 1))) := by
  cases ib with
  | true =>
    simp only [if_true]
    match L with
    | [] => simp [get_export_list, get_export_loop]
    | x :: xs =>
      have key : get_export_list (x :: xs) true e =
          mkExport (x :: xs) e 0 x :: get_export_loop (x :: xs) true e 1 xs := by
        simp [get_export_list, get_export_loop]
      rw [key]
      match j with
      | 0 => simp
      | Nat.succ k =>
        rw [List.getElem?_cons_succ]
        have h2 : (x :: xs)[k + 1 + 0]? = xs[k]? := by
          simp
        rw [h2, get_export_loop_getElem _ _ _ xs 1 one_ne_zero k]
        have harith : 1 + k = k + 1 + 0 := by omega
        rw [harith]
  | false =>
    simp only [Bool.false_eq_true, if_false]
    match L with
    | [] => simp [get_export_list, get_export_loop]
    | x :: xs =>
      have key : get_export_list (x :: xs) false e = get_export_loop (x :: xs) false e 1 xs := by
        simp [get_export_list, get_export_loop]
      rw [key, get_export_loop_getElem _ _ _ xs 1 one_ne_zero j]
      have h2 : (x :: xs)[j + 1]? = xs[j]? := List.getElem?_cons_succ
      rw [h2]
      have harith : 1 + j = j + 1 := by omega
      rw [harith]

theorem mem_mkExport_visible (L : List Layer) (e : Bool) (c : ℕ) (layer : Layer) (x : String) :
    x ∈ (mkExport L e c layer).visible_layers ↔
      ∃ k, ∃ hk : k < L.length, k ≤ c ∧ (L.get ⟨k, hk⟩).id = x := by
  simp only [mkExport, List.mem_toFinset, List.mem_map]
  constructor
  · rintro ⟨l, hl, rfl⟩
    obtain ⟨k, hk, hget⟩ := List.mem_iff_getElem.mp hl
    have hk2 : k < min (c + 1) L.length := by simpa [List.length_take] using hk
    have hkL : k < L.length := lt_of_lt_of_le hk2 (min_le_right _ _)
    refine ⟨k, hkL, by omega, ?_⟩
    rw [List.get_eq_getElem, ← List.getElem_take L (h := hk), hget]
  · rintro ⟨k, hk, hkc, hid⟩
    refine ⟨L.get ⟨k, hk⟩, ?_, hid⟩
    apply List.mem_iff_getElem.mpr
    have hk2 : k < (L.take (c + 1)).length := by simp [List.length_take]; omega
    exact ⟨k, hk2, by rw [List.getElem_take L, List.get_eq_getElem]⟩

theorem mkExport_visible_ssubset (L : List Layer) (e : Bool)
    (hnd : (L.map Layer.id).Nodup) (c : ℕ) (hc : c + 1 < L.length) (l1 l2 : Layer) :
    (mkExport L e c l1).visible_layers ⊂ (mkExport L e (c + 1) l2).visible_layers := by
  have hsome : L[c + 1]? = some (L.get ⟨c + 1, hc⟩) := by
    simp [List.getElem?_eq_some]
    exact hc
  have htake : L.take (c + 1 + 1) = L.take (c + 1) ++ [L.get ⟨c + 1, hc⟩] := by
    rw [List.take_succ, hsome]
    rfl
  have hnew_notmem : (L.get ⟨c + 1, hc⟩).id ∉ (L.take (c + 1)).map Layer.id := by
    have hsub : ((L.take (c + 1 + 1)).map Layer.id).Nodup :=
      ((List.take_sublist _ _).map Layer.id).nodup hnd
    rw [htake, List.map_append] at hsub
    have := (List.nodup_append.mp hsub).2.2
    intro hmem
    exact this hmem (by simp)
  constructor
  · intro x hx
    simp only [mkExport, List.mem_toFinset] at hx ⊢
    rw [htake, List.map_append]
    exact List.mem_append_left _ hx
  · intro hsub
    apply hnew_notmem
    have hxin : (L.get ⟨c + 1, hc⟩).id ∈ (mkExport L e (c + 1) l2).visible_layers := by
      simp only [mkExport, List.mem_toFinset]
      rw [htake, List.map_append]
      exact List.mem_append_right _ (by simp)
    have := hsub hxin
    simpa only [mkExport, List.mem_toFinset] using this

/-- C5: an emitted step at position `j` corresponds to source-layer index
`i = j` (background included) or `i = j + 1` (background excluded); its
visible set is exactly the ids of the layers with index `≤ i`, and, for
distinct layer ids, each successive step's visible set is a strict
superset of the previous one. -/
theorem C5_visible_prefix_monotone (L : List Layer) (ib e : Bool)
    (hnd : (L.map Layer.id).Nodup) :
    ∀ j (st : Export), (get_export_list L ib e)[j]? = some st →
      (∀ x : String, x ∈ st.visible_layers ↔
        ∃ k, ∃ hk : k < L.length, k ≤ j + (if ib then 0 else 1) ∧ (L.get ⟨k, hk⟩).id = x) ∧
      (∀ st2 : Export, (get_export_list L ib e)[j + 1]? = some st2 →
        st.visible_layers ⊂ st2.visible_layers) := by
  intro j st hst
  rw [get_export_list_getElem] at hst
  obtain ⟨layer, hlayer, hmk⟩ := Option.map_eq_some'.mp hst
  constructor
  · intro x
    rw [← hmk]
    exact mem_mkExport_visible L e _ layer x
  · intro st2 hst2
    rw [get_export_list_getElem] at hst2
    obtain ⟨layer2, hlayer2, hmk2⟩ := Option.map_eq_some'.mp hst2
    have hlt : j + 1 + (if ib then 0 else 1) < L.length := by
      obtain ⟨h, _⟩ := List.getElem?_eq_some.mp hlayer2
      exact h
    have harith : j + 1 + (if ib then 0 else 1) = (j + (if ib then 0 else 1)) + 1 := by omega
    rw [harith] at hlt hmk2
    rw [← hmk, ← hmk2]
    exact mkExport_visible_ssubset L e hnd _ hlt layer layer2

/-- Witness for C5 on a concrete three-layer document, background excluded. -/
theorem C5_visible_prefix_monotone_witness :
    ((([⟨"L1", "bg"⟩, ⟨"L2", "sky"⟩, ⟨"L3", "bird"⟩] : List Layer).map Layer.id).Nodup) ∧
    (∀ j (st : Export),
      (get_export_list [⟨"L1", "bg"⟩, ⟨"L2", "sky"⟩, ⟨"L3", "bird"⟩] false true)[j]? = some st →
      (∀ x : String, x ∈ st.visible_layers ↔
        ∃ k, ∃ hk : k < ([⟨"L1", "bg"⟩, ⟨"L2", "sky"⟩, ⟨"L3", "bird"⟩] : List Layer).length,
          k ≤ j + (if false then 0 else 1) ∧
          (([⟨"L1", "bg"⟩, ⟨"L2", "sky"⟩, ⟨"L3", "bird"⟩] : List Layer).get ⟨k, hk⟩).id = x) ∧
      (∀ st2 : Export,
        (get_export_list [⟨"L1", "bg"⟩, ⟨"L2", "sky"⟩, ⟨"L3", "bird"⟩] false true)[j + 1]? =
          some st2 →
        st.visible_layers ⊂ st2.visible_layers)) :=
  ⟨by decide, C5_visible_prefix_monotone _ false true (by decide)⟩

/-! ### Properties of the style-tag upsert (C6) -/

theorem filter_remove_first (l : List StyleRule) (tid : String) :
    (remove_first_by_id l tid).filter (fun r => decide (r.id = tid)) =
      (l.filter (fun r => decide (r.id = tid))).drop 1 := by
  induction l with
  | nil => rfl
  | cons t ts ih =>
    by_cases h : t.id = tid
    · simp [remove_first_by_id, h, List.filter_cons]
    · simp [remove_first_by_id, h, List.filter_cons, ih]

theorem filter_remove_first_ne (l : List StyleRule) (tid Y : String) (h : Y ≠ tid) :
    (remove_first_by_id l tid).filter (fun r => decide (r.id = Y)) =
      l.filter (fun r => decide (r.id = Y)) := by
  induction l with
  | nil => rfl
  | cons t ts ih =>
    by_cases ht : t.id = tid
    · have hnY : ¬(t.id = Y) := by rw [ht]; exact fun hh => h hh.symm
      simp [remove_first_by_id, if_pos ht, List.filter_cons, hnY]
    · simp only [remove_first_by_id, if_neg ht, List.filter_cons, ih]

theorem upsert_filter_self (l : List StyleRule) (tid : String) (c : RuleContent)
    (hle : (l.filter (fun r => decide (r.id = tid))).length ≤ 1) :
    (add_or_replace_style_tag l tid c).filter (fun r => decide (r.id = tid)) = [⟨tid, c⟩] := by
  unfold add_or_replace_style_tag
  rw [List.filter_append, filter_remove_first, List.drop_eq_nil_of_le hle]
  simp

/-- C6: inserting a style rule with id `X` twice (on a document holding at
most one rule with id `X`) leaves exactly one rule with id `X`, holding
the second content; and the upsert preserves the at-most-one-rule-per-id
invariant for every id. -/
theorem C6_style_upsert_idempotent (d : List StyleRule) (X : String) (c1 c2 : RuleContent)
    (hinv : (d.filter (fun r => decide (r.id = X))).length ≤ 1) :
    ((add_or_replace_style_tag (add_or_replace_style_tag d X c1) X c2).filter
        (fun r => decide (r.id = X)) = [⟨X, c2⟩]) ∧
    (∀ Y : String, (d.filter (fun r => decide (r.id = Y))).length ≤ 1 →
      ((add_or_replace_style_tag d X c1).filter
          (fun r => decide (r.id = Y))).length ≤ 1) := by
  constructor
  · apply upsert_filter_self
    rw [upsert_filter_self d X c1 hinv]
    simp
  · intro Y hY
    by_cases h : Y = X
    · subst h
      rw [upsert_filter_self d Y c1 hY]
      simp
    · unfold add_or_replace_style_tag
      rw [List.filter_append, filter_remove_first_ne d X Y h]
      have hnomatch : (([⟨X, c1⟩] : List StyleRule).filter (fun r => decide (r.id = Y))) = [] := by
        simp [List.filter_cons]
        exact fun hh => h hh.symm
      rw [hnomatch, List.append_nil]
      exact hY

/-- Witness for C6 on a concrete one-rule document. -/
theorem C6_style_upsert_idempotent_witness :
    ((([⟨"other", RuleContent.raw "x"⟩] : List StyleRule).filter
        (fun r => decide (r.id = "X"))).length ≤ 1) ∧
    (((add_or_replace_style_tag (add_or_replace_style_tag [⟨"other", RuleContent.raw "x"⟩]
          "X" (RuleContent.raw "a")) "X" (RuleContent.raw "b")).filter
        (fun r => decide (r.id = "X")) = [⟨"X", RuleContent.raw "b"⟩]) ∧
    (∀ Y : String,
      (([⟨"other", RuleContent.raw "x"⟩] : List StyleRule).filter
          (fun r => decide (r.id = Y))).length ≤ 1 →
      ((add_or_replace_style_tag [⟨"other", RuleContent.raw "x"⟩] "X"
            (RuleContent.raw "a")).filter
          (fun r => decide (r.id = Y))).length ≤ 1)) :=
  ⟨by decide,
   C6_style_upsert_idempotent [⟨"other", RuleContent.raw "x"⟩] "X"
     (RuleContent.raw "a") (RuleContent.raw "b") (by decide)⟩

/-! ### Error handling of the export step (C7, C10) -/

theorem set_layers_visibility_styles (doc : Document) (v : Finset String) :
    (set_layers_visibility doc v).styles = doc.styles := rfl

theorem export_to_svg_styles (doc : Document) (item : Export) :
    (export_to_svg doc item).styles = doc.styles := rfl

theorem add_animation_no_paths (doc : Document) (aid asty : String) :
    add_animation doc [] aid asty = some (doc, true) := rfl

/-- C7: when the step's top layer holds no path elements, the step emits
the "convert objects to paths" warning (flag `true`), writes no style
rules (the live document's styles are unchanged), and still produces the
exported copy of the step's document rather than aborting. -/
theorem C7_no_paths_warns_and_still_exports (doc : Document) (item : Export)
    (iteration : List String) (idx : ℕ) (asty : String) (tid : String) (top : LayerElem)
    (h1 : top_layer_of_iteration iteration = some tid)
    (h2 : getElementById (set_layers_visibility doc item.visible_layers) tid = some top)
    (h3 : top.paths = []) :
    effect_step doc item iteration idx asty =
      some (set_layers_visibility doc item.visible_layers,
            export_to_svg (set_layers_visibility doc item.visible_layers) item, true) ∧
    (set_layers_visibility doc item.visible_layers).styles = doc.styles ∧
    (export_to_svg (set_layers_visibility doc item.visible_layers) item).styles =
      doc.styles := by
  refine ⟨?_, rfl, rfl⟩
  simp only [effect_step, h1, h2, h3, add_animation_no_paths]

/-- Witness for C7 on a one-layer document whose layer has no paths. -/
theorem C7_no_paths_warns_and_still_exports_witness :
    (top_layer_of_iteration ["L1"] = some "L1" ∧
     getElementById (set_layers_visibility ⟨[⟨"L1", "bg", [], ""⟩], []⟩
        (⟨{"L1"}, "bg"⟩ : Export).visible_layers) "L1" =
       some ⟨"L1", "bg", [], "display:inline"⟩ ∧
     (⟨"L1", "bg", [], "display:inline"⟩ : LayerElem).paths = []) ∧
    (effect_step ⟨[⟨"L1", "bg", [], ""⟩], []⟩ ⟨{"L1"}, "bg"⟩ ["L1"] 0 "ease" =
      some (set_layers_visibility ⟨[⟨"L1", "bg", [], ""⟩], []⟩
              (⟨{"L1"}, "bg"⟩ : Export).visible_layers,
            export_to_svg (set_layers_visibility ⟨[⟨"L1", "bg", [], ""⟩], []⟩
              (⟨{"L1"}, "bg"⟩ : Export).visible_layers) ⟨{"L1"}, "bg"⟩, true) ∧
    (set_layers_visibility ⟨[⟨"L1", "bg", [], ""⟩], []⟩
        (⟨{"L1"}, "bg"⟩ : Export).visible_layers).styles =
      (⟨[⟨"L1", "bg", [], ""⟩], []⟩ : Document).styles ∧
    (export_to_svg (set_layers_visibility ⟨[⟨"L1", "bg", [], ""⟩], []⟩
        (⟨{"L1"}, "bg"⟩ : Export).visible_layers) ⟨{"L1"}, "bg"⟩).styles =
      (⟨[⟨"L1", "bg", [], ""⟩], []⟩ : Document).styles) :=
  ⟨⟨rfl, by decide, rfl⟩,
   C7_no_paths_warns_and_still_exports ⟨[⟨"L1", "bg", [], ""⟩], []⟩ ⟨{"L1"}, "bg"⟩
     ["L1"] 0 "ease" "L1" ⟨"L1", "bg", [], "display:inline"⟩ rfl (by decide) rfl⟩

/-- C10: `add_animation` divides by the total measured length without a
guard: a top layer with one zero-length path makes it raise
(`ZeroDivisionError`, modelled by `none`); under the precondition that the
measured lengths sum to a positive value it always succeeds. -/
theorem C10_division_total_only_with_positive_sum (doc : Document) (paths : List PathElem)
    (aid asty : String) (hne : paths ≠ [])
    (hpos : 0 < (paths.map (fun p => get_animatable_length p.subpaths)).sum) :
    (add_animation doc paths aid asty).isSome ∧
    add_animation ⟨[], []⟩ [⟨"p0", [[0]], ""⟩] "anim_0" "ease" = none := by
  constructor
  · unfold add_animation
    have h1 : ¬ ((paths.map (fun p => get_animatable_length p.subpaths)).isEmpty = true) := by
      match paths, hne with
      | p :: ps, _ => simp
    rw [if_neg h1, if_neg hpos.ne']
    simp
  · have hlen : get_animatable_length [[0]] = 0 := by
      norm_num [get_animatable_length]
    simp [add_animation, hlen]

/-- Witness for C10 with a single path of measured length 1. -/
theorem C10_division_total_only_with_positive_sum_witness :
    (([⟨"p1", [[1]], ""⟩] : List PathElem) ≠ [] ∧
      0 < (([⟨"p1", [[1]], ""⟩] : List PathElem).map
            (fun p => get_animatable_length p.subpaths)).sum) ∧
    ((add_animation ⟨[], []⟩ [⟨"p1", [[1]], ""⟩] "anim_0" "ease").isSome ∧
      add_animation ⟨[], []⟩ [⟨"p0", [[0]], ""⟩] "anim_0" "ease" = none) :=
  ⟨⟨by simp, by norm_num [get_animatable_length]⟩,
   C10_division_total_only_with_positive_sum ⟨[], []⟩ [⟨"p1", [[1]], ""⟩] "anim_0" "ease"
     (by simp) (by norm_num [get_animatable_length])⟩

/-! ### Top-layer selection (C2) -/

/-- C2 (code-bug evidence): the source resolves the "top" layer as the
last element of the unordered set's iteration order
(`list(export_item.visible_layers)[-1]`).  For the visible set
`{layer1, layer2}` the enumeration `["layer2", "layer1"]` is a valid
iteration order of that set (same elements, no duplicates), yet the code
then picks `layer1`, not the highest-stack-index visible layer `layer2`
that the specification requires. -/
theorem C2_top_layer_from_set_iteration_differs :
    (["layer2", "layer1"] : List String).Nodup ∧
    (["layer2", "layer1"] : List String).toFinset =
      (["layer1", "layer2"] : List String).toFinset ∧
    top_layer_of_iteration ["layer2", "layer1"] = some "layer1" ∧
    highest_index_visible [⟨"layer1", "a"⟩, ⟨"layer2", "b"⟩]
      (["layer1", "layer2"] : List String).toFinset = some "layer2" ∧
    top_layer_of_iteration ["layer2", "layer1"] ≠
      highest_index_visible [⟨"layer1", "a"⟩, ⟨"layer2", "b"⟩]
        (["layer1", "layer2"] : List String).toFinset := by
  decide

/-! ### Concrete evaluation of an export step (shared by C8 and C9) -/

theorem animate_loop_example (doc : Document) :
    animate_loop "anim_0" 1 doc [⟨"p1", [[1]], ""⟩] 0 =
      set_path_class
        ⟨doc.layers, add_or_replace_style_tag doc.styles "pathanim_p1"
          (path_style_content "p1" 0 100 1 1 0)⟩ "p1" "anim_0" := by
  have hlen : get_animatable_length [[1]] = 1 := by norm_num [get_animatable_length]
  have h100 : pyRound3 100 ⊓ 100 = (100 : ℚ) := by
    norm_num [pyRound3, round_half_even, min_def]
  simp [animate_loop, animate_path, hlen]
  rw [h100]

theorem add_animation_example :
    add_animation exampleDoc [⟨"p1", [[1]], ""⟩] "anim_0" "ease" =
      some (⟨[⟨"L1", "bg", [⟨"p1", [[1]], "anim_0"⟩], ""⟩],
             [⟨"pathanim_p1", path_style_content "p1" 0 100 1 1 0⟩,
              ⟨"anim_0", RuleContent.anim "anim_0" "ease"⟩]⟩, false) := by
  have hlen : get_animatable_length [[1]] = 1 := by norm_num [get_animatable_length]
  simp only [add_animation, List.map_cons, List.map_nil, hlen]
  norm_num
  rw [animate_loop_example]
  simp [set_path_class, add_or_replace_style_tag, remove_first_by_id, exampleDoc,
    path_style_content]

theorem add_animation_example_vis :
    add_animation exampleVisDoc [⟨"p1", [[1]], ""⟩] "anim_0" "ease" =
      some (exampleLive, false) := by
  have hlen : get_animatable_length [[1]] = 1 := by norm_num [get_animatable_length]
  simp only [add_animation, List.map_cons, List.map_nil, hlen]
  norm_num
  rw [animate_loop_example]
  simp [set_path_class, add_or_replace_style_tag, remove_first_by_id, exampleVisDoc,
    exampleLive, path_style_content]

theorem effect_step_example :
    effect_step exampleDoc ⟨{"L1"}, "bg"⟩ ["L1"] 0 "ease" =
      some (exampleLive, exampleLive, false) := by
  have hvis : set_layers_visibility exampleDoc
      ((⟨{"L1"}, "bg"⟩ : Export).visible_layers) = exampleVisDoc := by
    simp [set_layers_visibility, exampleDoc, exampleVisDoc]
  have htop : top_layer_of_iteration ["L1"] = some "L1" := rfl
  have hget : getElementById exampleVisDoc "L1" =
      some ⟨"L1", "bg", [⟨"p1", [[1]], ""⟩], "display:inline"⟩ := rfl
  have hexp : export_to_svg exampleLive ⟨{"L1"}, "bg"⟩ = exampleLive := by
    simp [export_to_svg, set_layers_visibility, exampleLive]
  have hanim := add_animation_example_vis
  have hstr : ("anim_" ++ toString (0 : ℕ)) = "anim_0" := rfl
  simp only [effect_step, hvis, htop, hget, hstr, hanim, hexp]

/-! ### Mutation of the live document (C9) -/

theorem mem_upsert_self (l : List StyleRule) (tid : String) (c : RuleContent) :
    (⟨tid, c⟩ : StyleRule) ∈ add_or_replace_style_tag l tid c :=
  List.mem_append_right _ (List.mem_singleton_self _)

theorem add_animation_some_not_warned (doc : Document) (paths : List PathElem)
    (aid asty : String) (d2 : Document)
    (h : add_animation doc paths aid asty = some (d2, false)) :
    (⟨aid, RuleContent.anim aid asty⟩ : StyleRule) ∈ d2.styles := by
  unfold add_animation at h
  by_cases h1 : (paths.map (fun e => get_animatable_length e.subpaths)).isEmpty = true
  · rw [if_pos h1] at h
    simp at h
  · rw [if_neg h1] at h
    by_cases h2 : (paths.map (fun e => get_animatable_length e.subpaths)).sum = 0
    · rw [if_pos h2] at h
      exact absurd h (by simp)
    · rw [if_neg h2] at h
      simp only [Option.some_inj, Prod.mk.injEq] at h
      rw [← h.1]
      exact mem_upsert_self _ aid (RuleContent.anim aid asty)

/-- C9 (amended): an export step applies the animation style rules to the
live, shared document; the step's exported copy is cloned from that
already-mutated document (its style section equals the live one's), and
the live document -- carrying the injected rules -- is what the next step
starts from. -/
theorem C9_rules_mutate_live_document (doc : Document) (item : Export)
    (iteration : List String) (idx : ℕ) (asty : String) (live exp : Document)
    (h : effect_step doc item iteration idx asty = some (live, exp, false)) :
    exp.styles = live.styles ∧
    (⟨"anim_" ++ toString idx, RuleContent.anim ("anim_" ++ toString idx) asty⟩ : StyleRule)
      ∈ live.styles := by
  simp only [effect_step] at h
  split at h
  · exact absurd h (by simp)
  · split at h
    · exact absurd h (by simp)
    · split at h
      · exact absurd h (by simp)
      · rename_i d2 w hanim
        simp only [Option.some_inj, Prod.mk.injEq] at h
        obtain ⟨hlive, hexp, hw⟩ := h
        subst hlive
        subst hw
        constructor
        · rw [← hexp]
          exact export_to_svg_styles _ item
        · exact add_animation_some_not_warned _ _ _ _ _ hanim

/-- Witness for the amended C9 on the concrete one-path document. -/
theorem C9_rules_mutate_live_document_witness :
    (effect_step exampleDoc ⟨{"L1"}, "bg"⟩ ["L1"] 0 "ease" =
      some (exampleLive, exampleLive, false)) ∧
    (exampleLive.styles = exampleLive.styles ∧
     (⟨"anim_" ++ toString (0 : ℕ),
        RuleContent.anim ("anim_" ++ toString (0 : ℕ)) "ease"⟩ : StyleRule)
       ∈ exampleLive.styles) :=
  ⟨effect_step_example,
   C9_rules_mutate_live_document exampleDoc ⟨{"L1"}, "bg"⟩ ["L1"] 0 "ease"
     exampleLive exampleLive effect_step_example⟩

/-- C9 counterexample: after the export step on the one-path example
document, the live (shared) document's style section is no longer the
original's -- the animation rules were injected into the shared document,
not only into the step's working copy. -/
theorem C9_counterexample_shared_document_mutated :
    (effect_step exampleDoc ⟨{"L1"}, "bg"⟩ ["L1"] 0 "ease").map
        (fun r => r.1.styles) = some exampleLive.styles ∧
    exampleLive.styles ≠ exampleDoc.styles := by
  constructor
  · rw [effect_step_example]
    rfl
  · simp [exampleLive, exampleDoc]

/-! ### Content of the emitted per-path rules (C8) -/

theorem string_append_left_cancel {a b c : String} (h : a ++ b = a ++ c) : b = c := by
  have hd := congrArg String.data h
  rw [String.data_append, String.data_append] at hd
  match b, c with
  | ⟨bd⟩, ⟨cd⟩ => exact congrArg String.mk (List.append_cancel_left hd)

theorem mem_remove_first_of_ne (l : List StyleRule) (tid : String) (r : StyleRule)
    (hr : r ∈ l) (hne : ¬(r.id = tid)) : r ∈ remove_first_by_id l tid := by
  induction l with
  | nil => exact absurd hr (by simp)
  | cons t ts ih =>
    by_cases ht : t.id = tid
    · simp only [remove_first_by_id, if_pos ht]
      rcases List.mem_cons.mp hr with h | h
      · exact absurd (h ▸ ht) hne
      · exact h
    · simp only [remove_first_by_id, if_neg ht]
      rcases List.mem_cons.mp hr with h | h
      · exact h ▸ List.mem_cons_self _ _
      · exact List.mem_cons_of_mem _ (ih h)

theorem mem_upsert_of_ne (l : List StyleRule) (tid : String) (c : RuleContent)
    (r : StyleRule) (hr : r ∈ l) (hne : ¬(r.id = tid)) :
    r ∈ add_or_replace_style_tag l tid c :=
  List.mem_append_left _ (mem_remove_first_of_ne l tid r hr hne)

theorem set_path_class_styles (doc : Document) (pid cname : String) :
    (set_path_class doc pid cname).styles = doc.styles := rfl

theorem animate_path_styles (doc : Document) (p : PathElem)
    (s e len sl el : ℚ) (aid : String) :
    (animate_path doc p s e len sl el aid).styles =
      add_or_replace_style_tag doc.styles ("pathanim_" ++ p.id)
        (path_style_content p.id s e len sl el) := rfl

theorem animate_loop_preserves (aid : String) (total : ℚ) (ps : List PathElem) :
    ∀ (doc : Document) (endp : ℚ) (r : StyleRule),
      r ∈ doc.styles → (∀ p ∈ ps, ¬("pathanim_" ++ p.id = r.id)) →
      r ∈ (animate_loop aid total doc ps endp).styles := by
  induction ps with
  | nil => intro doc endp r hr _; simpa [animate_loop] using hr
  | cons p ps' ih =>
    intro doc endp r hr hne
    simp only [animate_loop]
    apply ih
    · rw [animate_path_styles]
      exact mem_upsert_of_ne _ _ _ r hr
        (fun hh => hne p (List.mem_cons_self _ _) hh.symm)
    · exact fun q hq => hne q (List.mem_cons_of_mem _ hq)

theorem animate_loop_rule_mem (aid : String) (total : ℚ) (ps : List PathElem) :
    ∀ (doc : Document) (endp : ℚ) (i : ℕ) (hi : i < ps.length),
      (ps.map PathElem.id).Nodup →
      (⟨"pathanim_" ++ (ps.get ⟨i, hi⟩).id,
        path_style_content (ps.get ⟨i, hi⟩).id
          ((allocate (ps.map (fun p => get_animatable_length p.subpaths)) total endp).getD
            i (0, 0)).1
          ((allocate (ps.map (fun p => get_animatable_length p.subpaths)) total endp).getD
            i (0, 0)).2
          (get_animatable_length (ps.get ⟨i, hi⟩).subpaths)
          (get_animatable_length (ps.get ⟨i, hi⟩).subpaths) 0⟩ : StyleRule) ∈
        (animate_loop aid total doc ps endp).styles := by
  induction ps with
  | nil => intro doc endp i hi _; exact absurd hi (by simp)
  | cons p ps' ih =>
    intro doc endp i hi hnd
    have hnotin : p.id ∉ ps'.map PathElem.id := (List.nodup_cons.mp (by simpa using hnd)).1
    match i with
    | 0 =>
      simp only [List.get, List.map_cons, allocate, List.getD_cons_zero, animate_loop]
      apply animate_loop_preserves
      · rw [animate_path_styles]
        exact mem_upsert_self _ _ _
      · intro q hq hh
        exact hnotin (List.mem_map.mpr ⟨q, hq, string_append_left_cancel hh⟩)
    | Nat.succ j =>
      have hj : j < ps'.length := by simpa using Nat.lt_of_succ_lt_succ hi
      have := ih (animate_path doc p endp
          (min (endp + pyRound3 (get_animatable_length p.subpaths / total * 100)) 100)
          (get_animatable_length p.subpaths) (get_animatable_length p.subpaths) 0 aid)
        (min (endp + pyRound3 (get_animatable_length p.subpaths / total * 100)) 100)
        j hj (by simpa using (List.nodup_cons.mp (by simpa using hnd)).2)
      simp only [List.get_cons_succ, List.map_cons, allocate, List.getD_cons_succ, animate_loop]
      exact this

/-- C8 (amended): for each animated path `i`, `add_animation` leaves in the
document a style rule keyed `pathanim_{pathId}` whose content is the
`animate_path` template applied with an id-target selector `#{pathId}`,
`animation-name: {pathId}`, `stroke-dasharray: {length_i}`, a keyframes
block named `{pathId}` whose offsets `0%` and `start_i%` set
`stroke-dashoffset` to `{length_i}` and whose offsets `end_i%` and `100%`
set it to 0, where `(start_i, end_i)` is path `i`'s allocation slot.
(The path ids must be distinct and no `pathanim_` key may equal the
animation id, which holds for the ids the source generates.) -/
theorem C8_per_path_rule (to_animate : List PathElem) (doc : Document)
    (aid asty : String) (hnd : (to_animate.map PathElem.id).Nodup)
    (haid : ∀ p ∈ to_animate, ¬("pathanim_" ++ p.id = aid))
    (i : ℕ) (hi : i < to_animate.length) (d2 : Document) (w : Bool)
    (h : add_animation doc to_animate aid asty = some (d2, w)) :
    (⟨"pathanim_" ++ (to_animate.get ⟨i, hi⟩).id,
      path_style_content (to_animate.get ⟨i, hi⟩).id
        ((allocation (to_animate.map (fun p => get_animatable_length p.subpaths))).getD
          i (0, 0)).1
        ((allocation (to_animate.map (fun p => get_animatable_length p.subpaths))).getD
          i (0, 0)).2
        (get_animatable_length (to_animate.get ⟨i, hi⟩).subpaths)
        (get_animatable_length (to_animate.get ⟨i, hi⟩).subpaths) 0⟩ : StyleRule)
      ∈ d2.styles := by
  unfold add_animation at h
  have hne : ¬((to_animate.map (fun e => get_animatable_length e.subpaths)).isEmpty = true) := by
    match to_animate, hi with
    | p :: ps, _ => simp
  rw [if_neg hne] at h
  by_cases h2 : (to_animate.map (fun e => get_animatable_length e.subpaths)).sum = 0
  · rw [if_pos h2] at h
    exact absurd h (by simp)
  · rw [if_neg h2] at h
    simp only [Option.some_inj, Prod.mk.injEq] at h
    rw [← h.1]
    apply mem_upsert_of_ne
    · rw [allocation]
      exact animate_loop_rule_mem aid _ to_animate doc 0 i hi hnd
    · exact haid (to_animate.get ⟨i, hi⟩) (List.get_mem to_animate i hi)

/-- Witness for the amended C8 on the one-path example document. -/
theorem C8_per_path_rule_witness :
    ((([⟨"p1", [[1]], ""⟩] : List PathElem).map PathElem.id).Nodup ∧
     (∀ p ∈ ([⟨"p1", [[1]], ""⟩] : List PathElem), ¬("pathanim_" ++ p.id = "anim_0")) ∧
     0 < ([⟨"p1", [[1]], ""⟩] : List PathElem).length ∧
     add_animation exampleDoc [⟨"p1", [[1]], ""⟩] "anim_0" "ease" =
       some (⟨[⟨"L1", "bg", [⟨"p1", [[1]], "anim_0"⟩], ""⟩],
              [⟨"pathanim_p1", path_style_content "p1" 0 100 1 1 0⟩,
               ⟨"anim_0", RuleContent.anim "anim_0" "ease"⟩]⟩, false)) ∧
    (⟨"pathanim_" ++ (([⟨"p1", [[1]], ""⟩] : List PathElem).get ⟨0, by norm_num⟩).id,
      path_style_content (([⟨"p1", [[1]], ""⟩] : List PathElem).get ⟨0, by norm_num⟩).id
        ((allocation (([⟨"p1", [[1]], ""⟩] : List PathElem).map
            (fun p => get_animatable_length p.subpaths))).getD 0 (0, 0)).1
        ((allocation (([⟨"p1", [[1]], ""⟩] : List PathElem).map
            (fun p => get_animatable_length p.subpaths))).getD 0 (0, 0)).2
        (get_animatable_length (([⟨"p1", [[1]], ""⟩] : List PathElem).get
          ⟨0, by norm_num⟩).subpaths)
        (get_animatable_length (([⟨"p1", [[1]], ""⟩] : List PathElem).get
          ⟨0, by norm_num⟩).subpaths) 0⟩ : StyleRule)
      ∈ (⟨[⟨"L1", "bg", [⟨"p1", [[1]], "anim_0"⟩], ""⟩],
          [⟨"pathanim_p1", path_style_content "p1" 0 100 1 1 0⟩,
           ⟨"anim_0", RuleContent.anim "anim_0" "ease"⟩]⟩ : Document).styles :=
  ⟨⟨by decide, by decide, by norm_num, add_animation_example⟩,
   C8_per_path_rule [⟨"p1", [[1]], ""⟩] exampleDoc "anim_0" "ease" (by decide) (by decide)
     0 (by norm_num) _ false add_animation_example⟩

/-- C8 counterexample: on the one-path example document the emitted
per-path rule's selector is the id selector `#p1`; no rule in the
resulting document carries a class-target selector `.p1`, refuting the
claim's "class-target selector". -/
theorem C8_counterexample_selector_not_class :
    (add_animation exampleDoc [⟨"p1", [[1]], ""⟩] "anim_0" "ease").map
        (fun r => r.1.styles) =
      some [⟨"pathanim_p1", path_style_content "p1" 0 100 1 1 0⟩,
            ⟨"anim_0", RuleContent.anim "anim_0" "ease"⟩] ∧
    path_style_content "p1" 0 100 1 1 0 =
      RuleContent.path ⟨"#p1", "p1", 1, "p1", [0, 0], 1, [100, 100], 0⟩ ∧
    (([⟨"pathanim_p1", path_style_content "p1" 0 100 1 1 0⟩,
       ⟨"anim_0", RuleContent.anim "anim_0" "ease"⟩] : List StyleRule).all
        (fun r => !(has_class_selector "p1" r))) = true := by
  refine ⟨?_, ?_, ?_⟩
  · rw [add_animation_example]
    rfl
  · rfl
  · decide
